import Mathlib

/-!
Verification of the SimulationBuilder repository (a SillyTavern extension
maintaining numeric "stats" updated by commands embedded in chat text).

Numbers are modelled as rationals (`ℚ`).  This is an exact idealization of
the IEEE-754 binary64 arithmetic JS actually performs: it is faithful for
the concrete values appearing in the claims below (each is exactly
representable, and every intermediate of the traced computations rounds
exactly), but it drops double rounding and absorption, so properties
quantified over *all* JS numbers (such as a universal tolerance bound on
`SafeMath`) are not faithfully statable in this embedding and are not
claimed here.  JS `Math.round x` is `⌊x + 1/2⌋`, which is Mathlib's
`round`.

Strings are Lean `String`s; the scanners work on `List Char`.  JS `\s` is
modelled as ASCII whitespace (space, tab, newline, carriage return, vertical
tab, form feed); the claims only involve plain spaces.
-/

namespace SimBuilder

/-- The constant `1e10` used by `SafeMath` for rounding to ten decimals. -/
def tenPow10 : ℚ := 10000000000

/-- Rounding to 10 decimal places as done by every `SafeMath` operation in
`src/modules/Utils.js`: `Math.round(x * 1e10) / 1e10`. -/
def roundTo10 (q : ℚ) : ℚ := (round (q * tenPow10) : ℚ) / tenPow10

/-- JS `toNumber(value, default)` from `src/modules/Utils.js`, on an
optional rational (absent / non-numeric input yields the default; a finite
number is returned unchanged). -/
def toNumberOpt (v : Option ℚ) (d : ℚ) : ℚ := v.getD d

/-- JS `toPositiveInt` from `src/modules/Utils.js` applied to an
already-sanitized number: `Math.max(1, Math.floor(num))`. -/
def toPositiveIntVal (q : ℚ) : ℚ := max 1 (⌊q⌋ : ℚ)

/-- JS `toPositiveInt(value, default)` from `src/modules/Utils.js` on an
optional rational. -/
def toPositiveIntOpt (v : Option ℚ) (d : ℚ) : ℚ := toPositiveIntVal (toNumberOpt v d)

namespace SafeMath

/-! The four operations below embed `SafeMath` of `src/modules/Utils.js`
over exact rationals.  The source computes in binary64 doubles; the
idealization is exact for the concrete operands these claims evaluate
(all double-exact, with double-exact intermediates) but not for universal
statements over all JS numbers, where double absorption matters. -/

/-- `SafeMath.add` from `src/modules/Utils.js`. -/
def add (a b : ℚ) : ℚ := roundTo10 (a + b)

/-- `SafeMath.subtract` from `src/modules/Utils.js`. -/
def subtract (a b : ℚ) : ℚ := roundTo10 (a - b)

/-- `SafeMath.multiply` from `src/modules/Utils.js`. -/
def multiply (a b : ℚ) : ℚ := roundTo10 (a * b)

/-- `SafeMath.divide` from `src/modules/Utils.js`: division by zero returns
the caller-supplied default. -/
def divide (a b d : ℚ) : ℚ := if b = 0 then d else roundTo10 (a / b)

end SafeMath

/-! ## String helpers (JS semantics) -/

/-- JS `\s` (whitespace class), restricted to ASCII whitespace. -/
def isWsChar (c : Char) : Bool :=
  c = ' ' || c = '\t' || c = '\n' || c = '\r' || c = '\x0b' || c = '\x0c'

/-- JS `String.prototype.trim` on a character list. -/
def jsTrim (cs : List Char) : List Char :=
  ((cs.dropWhile isWsChar).reverse.dropWhile isWsChar).reverse

/-- JS `toLowerCase` on a single ASCII character. -/
def jsToLowerChar (c : Char) : Char :=
  if 65 ≤ c.toNat ∧ c.toNat ≤ 90 then Char.ofNat (c.toNat + 32) else c

/-- JS `isNonEmptyString` from `src/modules/Utils.js`: a string whose trim is
non-empty. -/
def jsIsNonEmptyString (s : String) : Bool := !(jsTrim s.toList).isEmpty

/-- Character class of the first stat-id character in the modular parser's
pattern: `[a-zA-Z_]`. -/
def isIdStartChar (c : Char) : Bool := c.isAlpha || c = '_'

/-- Character class of subsequent stat-id characters: `[a-zA-Z0-9_-]`. -/
def isIdChar (c : Char) : Bool := c.isAlphanum || c = '_' || c = '-'

/-- Digit character class `[0-9]`. -/
def isDigitChar (c : Char) : Bool := c.isDigit

/-- Numeric value of a digit string (most significant first). -/
def digitsToNat (ds : List Char) : ℕ := ds.foldl (fun a c => a * 10 + (c.toNat - 48)) 0

/-- Value of a fractional digit string (the digits after the decimal point). -/
def fracToQ (ds : List Char) : ℚ := (digitsToNat ds : ℚ) / (10 : ℚ) ^ ds.length

/-- JS `Number(str)` on the decimal strings reachable from the parsers:
an optional sign, digits, and an optional fractional part, consuming the
whole string; anything else is NaN (`none`).  (Hex/exponent/`Infinity`
syntax is not modelled; the scanners below never produce it.) -/
def jsNumberQ (cs : List Char) : Option ℚ :=
  let sp : ℚ × List Char :=
    match cs with
    | '-' :: rest => (-1, rest)
    | '+' :: rest => (1, rest)
    | _ => (1, cs)
  let (d1, cs2) := sp.2.span isDigitChar
  let fp : List Char × List Char :=
    match cs2 with
    | '.' :: rest => rest.span isDigitChar
    | _ => ([], cs2)
  if fp.2.isEmpty ∧ ¬(d1.isEmpty ∧ fp.1.isEmpty) then
    some (sp.1 * ((digitsToNat d1 : ℚ) + fracToQ fp.1))
  else none

/-- JS `parseFloat(str)` on decimal strings: skips leading whitespace, then
reads an optional sign and the longest prefix shaped `digits ['.' digits]`;
NaN (`none`) when no digit is read.  (Exponent/`Infinity` syntax is not
modelled.) -/
def jsParseFloatQ (cs0 : List Char) : Option ℚ :=
  let cs := cs0.dropWhile isWsChar
  let sp : ℚ × List Char :=
    match cs with
    | '-' :: rest => (-1, rest)
    | '+' :: rest => (1, rest)
    | _ => (1, cs)
  let (d1, cs2) := sp.2.span isDigitChar
  let d2 : List Char :=
    match cs2 with
    | '.' :: rest => (rest.span isDigitChar).1
    | _ => []
  if d1.isEmpty ∧ d2.isEmpty then none
  else some (sp.1 * ((digitsToNat d1 : ℚ) + fracToQ d2))

/-! ## The modular parser (`StatParser` in `src/unnamed/part_000`)

The parser is specialized to the default configuration (open tag `{{`,
close tag `}}`, separator `:`), which is the configuration used by every
claim; the case-sensitivity flag is kept as a parameter.  The `raw` and
`error` bookkeeping fields of a parsed command are omitted (they do not
affect validity or any compared field). -/

/-- Command type tags (`ParseResultType` in the source). -/
inductive CmdType where
  | modify
  | set
  | invalid
deriving DecidableEq, Repr

/-- A parsed command (the `ParsedCommand` record of `src/unnamed/part_000`,
without the `raw`/`error` bookkeeping fields). -/
structure ParsedCommand where
  statId : String
  value : ℚ
  type : CmdType
  isValid : Bool
deriving DecidableEq, Repr

/-- Matcher for the value group of the modular pattern,
`[=+\-]?\s*-?[0-9]+(?:\.[0-9]+)?`, returning the matched characters and the
rest.  The regex alternation is deterministic here: a leading `=`/`+`/`-` is
always consumed when present (shown in the source pattern analysis), digit
runs are maximal, and the fractional group is taken exactly when a `.`
followed by a digit is next. -/
def matchValue (cs : List Char) : Option (List Char × List Char) :=
  let sp : List Char × List Char :=
    match cs with
    | c :: rest => if c = '=' || c = '+' || c = '-' then ([c], rest) else ([], cs)
    | [] => ([], [])
  let (ws, cs2) := sp.2.span isWsChar
  let np : List Char × List Char :=
    match cs2 with
    | '-' :: rest => (['-'], rest)
    | _ => ([], cs2)
  let (digs, cs4) := np.2.span isDigitChar
  if digs.isEmpty then none
  else
    let fp : List Char × List Char :=
      match cs4 with
      | '.' :: rest =>
        let (fd, r2) := rest.span isDigitChar
        if fd.isEmpty then ([], cs4) else ('.' :: fd, r2)
      | _ => ([], cs4)
    some (sp.1 ++ ws ++ np.1 ++ digs ++ fp.1, fp.2)

/-- Matcher for the modular pattern
`\x7b\x7b\s*([a-zA-Z_][a-zA-Z0-9_\-]*)\s*:\s*(VALUE)\s*\x7d\x7d` at the head
of the character list; returns the id group, the value group and the rest
after the match. -/
def matchModularAt (cs : List Char) : Option (List Char × List Char × List Char) :=
  match cs with
  | '\x7b' :: '\x7b' :: cs0 =>
    let cs1 := cs0.dropWhile isWsChar
    match cs1 with
    | c :: cs2 =>
      if isIdStartChar c then
        let (idTail, cs3) := cs2.span isIdChar
        let cs4 := cs3.dropWhile isWsChar
        match cs4 with
        | ':' :: cs5 =>
          let cs6 := cs5.dropWhile isWsChar
          match matchValue cs6 with
          | some (v, cs7) =>
            let cs8 := cs7.dropWhile isWsChar
            match cs8 with
            | '\x7d' :: '\x7d' :: rest => some (c :: idTail, v, rest)
            | _ => none
          | none => none
        | _ => none
      else none
    | [] => none
  | _ => none

/-- `StatParser._parseCommand` of `src/unnamed/part_000` on the matched id
and value groups: lower-cases the id unless case-sensitive, strips all
whitespace from the value, reads `=` as SET else MODIFY, and marks the
command invalid when the number is not finite. -/
def modularParseCommand (caseSensitive : Bool) (idRaw valueRaw : List Char) : ParsedCommand :=
  let idTrim := jsTrim idRaw
  let statId := String.mk (if caseSensitive then idTrim else idTrim.map jsToLowerChar)
  let v := valueRaw.filter (fun c => !(isWsChar c))
  match v with
  | [] => { statId := statId, value := 0, type := .invalid, isValid := false }
  | '=' :: numStr =>
    match jsNumberQ numStr with
    | some q => { statId := statId, value := q, type := .set, isValid := true }
    | none => { statId := statId, value := 0, type := .invalid, isValid := false }
  | _ =>
    match jsNumberQ v with
    | some q => { statId := statId, value := q, type := .modify, isValid := true }
    | none => { statId := statId, value := 0, type := .invalid, isValid := false }

/-- The global-regex scan of `StatParser.parse`: repeatedly find the
leftmost match, emit the parsed command, and continue after it; on a failed
attempt advance one character.  Fuel is the remaining length, which strictly
exceeds the number of remaining steps. -/
def modularScan (caseSensitive : Bool) : ℕ → List Char → List ParsedCommand
  | 0, _ => []
  | _ + 1, [] => []
  | fuel + 1, c :: cs =>
    match matchModularAt (c :: cs) with
    | some (idRaw, v, rest) =>
      modularParseCommand caseSensitive idRaw v :: modularScan caseSensitive fuel rest
    | none => modularScan caseSensitive fuel cs

namespace ModularParser

/-- `StatParser.parse` of `src/unnamed/part_000` under the default
delimiters. -/
def parse (caseSensitive : Bool) (text : String) : List ParsedCommand :=
  if jsIsNonEmptyString text then modularScan caseSensitive text.toList.length text.toList
  else []

/-- `StatParser.parseValid` of `src/unnamed/part_000`. -/
def parseValid (caseSensitive : Bool) (text : String) : List ParsedCommand :=
  (parse caseSensitive text).filter (·.isValid)

/-- The insertion fold of `StatParser.getStatChanges`: a command is added to
the map only when its stat id is not present yet (JS `Map` keeps insertion
order; modelled as an association list). -/
def statChangesFold : List ParsedCommand → List (String × ParsedCommand) →
    List (String × ParsedCommand)
  | [], acc => acc
  | c :: cs, acc =>
    statChangesFold cs
      (if (acc.find? (fun e => e.1 == c.statId)).isSome then acc else acc ++ [(c.statId, c)])

/-- `StatParser.getStatChanges` of `src/unnamed/part_000`. -/
def getStatChanges (caseSensitive : Bool) (text : String) : List (String × ParsedCommand) :=
  statChangesFold (parseValid caseSensitive text) []

/-- `Map.get` on the association list returned by `getStatChanges`. -/
def lookupChange (m : List (String × ParsedCommand)) (id : String) : Option ParsedCommand :=
  (m.find? (fun e => e.1 == id)).map (·.2)

end ModularParser

/-! ## The standalone parser (`StatParser` in `src/index.js`)

Its pattern is `\x7b\x7b([^\x7d]+)\x7d\x7d` with the braced content split at
the first separator; specialized to the default configuration. -/

/-- A command produced by the standalone parser (`{statId, value, type}`;
the `raw` field is omitted). -/
structure SCommand where
  statId : String
  value : ℚ
  type : CmdType
deriving DecidableEq, Repr

/-- Matcher for `\x7b\x7b([^\x7d]+)\x7d\x7d` at the head of the list:
the content is the maximal non-empty run of non-`\x7d` characters and must
be followed by the two-character close tag. -/
def matchStandaloneAt (cs : List Char) : Option (List Char × List Char) :=
  match cs with
  | '\x7b' :: '\x7b' :: cs0 =>
    let (content, cs1) := cs0.span (fun c => c != '\x7d')
    if content.isEmpty then none
    else
      match cs1 with
      | '\x7d' :: '\x7d' :: rest => some (content, rest)
      | _ => none
  | _ => none

/-- Split a character list at the first occurrence of `sep`
(JS `indexOf`); `none` when absent. -/
def splitFirst (sep : Char) : List Char → Option (List Char × List Char)
  | [] => none
  | c :: cs =>
    if c = sep then some ([], cs)
    else (splitFirst sep cs).map (fun p => (c :: p.1, p.2))

/-- The per-match body of the standalone `parseValid` loop: trim the
content, split at the first `:`, require a non-empty id and value, read a
leading `=` as SET, and parse the value with `parseFloat`; any failure skips
the match. -/
def standaloneParseContent (caseSensitive : Bool) (content : List Char) : Option SCommand :=
  let content := jsTrim content
  match splitFirst ':' content with
  | none => none
  | some (idPart, valPart) =>
    let statId := jsTrim idPart
    let valueStr := jsTrim valPart
    if statId.isEmpty ∨ valueStr.isEmpty then none
    else
      let tv : CmdType × List Char :=
        match valueStr with
        | '=' :: rest => (.set, rest)
        | _ => (.modify, valueStr)
      match jsParseFloatQ tv.2 with
      | none => none
      | some q =>
        some { statId := String.mk (if caseSensitive then statId else statId.map jsToLowerChar),
               value := q, type := tv.1 }

/-- The global-regex scan of the standalone `parseValid`. -/
def standaloneScan (caseSensitive : Bool) : ℕ → List Char → List SCommand
  | 0, _ => []
  | _ + 1, [] => []
  | fuel + 1, c :: cs =>
    match matchStandaloneAt (c :: cs) with
    | some (content, rest) =>
      match standaloneParseContent caseSensitive content with
      | some cmd => cmd :: standaloneScan caseSensitive fuel rest
      | none => standaloneScan caseSensitive fuel rest
    | none => standaloneScan caseSensitive fuel cs

namespace StandaloneParser

/-- `StatParser.parseValid` of `src/index.js` under the default
configuration (an empty string is falsy and yields no commands). -/
def parseValid (caseSensitive : Bool) (text : String) : List SCommand :=
  if text = "" then [] else standaloneScan caseSensitive text.toList.length text.toList

end StandaloneParser

/-! ## Id sanitization -/

/-- Collapse runs of underscores to a single underscore (the
`replace(/_+/g, '_')` step); `prev` records whether the previously emitted
character was an underscore. -/
def collapseUnders (prev : Bool) : List Char → List Char
  | [] => []
  | c :: cs =>
    if c = '_' then
      if prev then collapseUnders true cs else '_' :: collapseUnders true cs
    else c :: collapseUnders false cs

/-- Character class `[a-z0-9_-]` kept by both `sanitizeId` variants. -/
def isSanitizedChar (c : Char) : Bool :=
  (97 ≤ c.toNat && c.toNat ≤ 122) || (48 ≤ c.toNat && c.toNat ≤ 57) || c = '_' || c = '-'

/-- `sanitizeId` from `src/index.js`: lowercase, replace characters outside
`[a-z0-9_-]` with `_`, collapse underscore runs, truncate to 32
characters. -/
def sanitizeIdStandalone (s : String) : String :=
  String.mk ((collapseUnders false ((s.toList.map jsToLowerChar).map
    (fun c => if isSanitizedChar c then c else '_'))).take 32)

/-- Remove one leading and one trailing underscore (the
`replace(/^_|_$/g, '')` step). -/
def stripOneLeadTrailUnder (cs : List Char) : List Char :=
  let cs1 := match cs with
    | '_' :: rest => rest
    | _ => cs
  match cs1.reverse with
  | '_' :: rest => rest.reverse
  | _ => cs1

/-- `sanitizeId` from `src/modules/Utils.js`: trim, lowercase, replace
characters outside `[a-z0-9_-]` with `_`, collapse underscore runs, strip a
leading/trailing underscore.  (The `unnamed_<Date.now()>` fallback for
blank input is not modelled; every call site in this development guards the
input with `isNonEmptyString` exactly as the source does.) -/
def sanitizeIdU (s : String) : String :=
  String.mk (stripOneLeadTrailUnder (collapseUnders false
    (((jsTrim s.toList).map jsToLowerChar).map
      (fun c => if isSanitizedChar c then c else '_'))))

/-! ## The standalone `Stat` class (`src/index.js`) -/

/-- The `{oldValue, newValue, actualChange}` record returned by
`Stat.modify`/`Stat.set`. -/
structure ChangeResult where
  oldValue : ℚ
  newValue : ℚ
  actualChange : ℚ
deriving DecidableEq, Repr

/-- The standalone `Stat` of `src/index.js`. -/
structure Stat where
  id : String
  name : String
  baseValue : ℚ
  currentValue : ℚ
  minValue : ℚ
  maxValue : ℚ
  color : String
  displayMode : String
  showInUI : Bool
  category : String
  lastChange : ℚ
deriving DecidableEq, Repr

/-- A constructor configuration object for `Stat` (and for the
spec-modelled modular stat, which serializes the same fields); `none` is an
absent (or non-string / non-numeric) property. -/
structure StatConfig where
  id : Option String
  name : Option String
  baseValue : Option ℚ
  currentValue : Option ℚ
  minValue : Option ℚ
  maxValue : Option ℚ
  color : Option String
  displayMode : Option String
  showInUI : Option Bool
  category : Option String
deriving Repr

/-- The `Stat` constructor of `src/index.js`.  `fresh` stands for the
`generateId('stat')` fallback.  Note that the constructor neither swaps
`minValue`/`maxValue` nor clamps `currentValue`. -/
def mkStat (fresh : String) (c : StatConfig) : Stat :=
  let baseValue := toNumberOpt c.baseValue 100
  { id := match c.id with
      | some s => if jsIsNonEmptyString s then sanitizeIdStandalone s else fresh
      | none => fresh
    name := c.name.getD "Unnamed Stat"
    baseValue := baseValue
    currentValue := toNumberOpt c.currentValue baseValue
    minValue := toNumberOpt c.minValue 0
    maxValue := toNumberOpt c.maxValue 100
    color := c.color.getD "#4a90d9"
    displayMode := match c.displayMode with
      | some s => if s = "" then "fraction" else s
      | none => "fraction"
    showInUI := match c.showInUI with
      | some false => false
      | _ => true
    category := c.category.getD ""
    lastChange := 0 }

/-- `Stat.modify(delta)` of `src/index.js`: clamp `currentValue + delta`
into `[minValue, maxValue]` (as `Math.max(min, Math.min(max, v))`), record
`lastChange`, return the change result. -/
def Stat.modify (s : Stat) (delta : ℚ) : Stat × ChangeResult :=
  let oldValue := s.currentValue
  let newValue := max s.minValue (min s.maxValue (s.currentValue + delta))
  ({ s with currentValue := newValue, lastChange := newValue - oldValue },
   { oldValue := oldValue, newValue := newValue, actualChange := newValue - oldValue })

/-- `Stat.set(value)` of `src/index.js`. -/
def Stat.set (s : Stat) (value : ℚ) : Stat × ChangeResult :=
  let oldValue := s.currentValue
  let newValue := max s.minValue (min s.maxValue value)
  ({ s with currentValue := newValue, lastChange := newValue - oldValue },
   { oldValue := oldValue, newValue := newValue, actualChange := newValue - oldValue })

/-- The serialized form emitted by `Stat.toJSON` of `src/index.js`. -/
structure StatJson where
  id : String
  name : String
  baseValue : ℚ
  currentValue : ℚ
  minValue : ℚ
  maxValue : ℚ
  color : String
  displayMode : String
  showInUI : Bool
  category : String
deriving DecidableEq, Repr

/-- `Stat.toJSON` of `src/index.js`. -/
def Stat.toJSON (s : Stat) : StatJson :=
  { id := s.id, name := s.name, baseValue := s.baseValue,
    currentValue := s.currentValue, minValue := s.minValue,
    maxValue := s.maxValue, color := s.color, displayMode := s.displayMode,
    showInUI := s.showInUI, category := s.category }

/-- A serialized stat seen as a constructor configuration (every field
present). -/
def statJsonConfig (j : StatJson) : StatConfig :=
  { id := some j.id, name := some j.name, baseValue := some j.baseValue,
    currentValue := some j.currentValue, minValue := some j.minValue,
    maxValue := some j.maxValue, color := some j.color,
    displayMode := some j.displayMode, showInUI := some j.showInUI,
    category := some j.category }

/-- `Stat.fromJSON` of `src/index.js` (`new Stat(data)`). -/
def Stat.fromJSON (fresh : String) (j : StatJson) : Stat :=
  mkStat fresh (statJsonConfig j)

/-- One mutation of a stat, for stating the clamping invariant. -/
inductive StatOp where
  | modify (delta : ℚ)
  | set (value : ℚ)

/-- Apply one mutation. -/
def Stat.applyOp (s : Stat) (op : StatOp) : Stat :=
  match op with
  | .modify d => (s.modify d).1
  | .set v => (s.set v).1

/-- Apply a sequence of mutations in order. -/
def Stat.applyOps (s : Stat) (ops : List StatOp) : Stat :=
  ops.foldl Stat.applyOp s

/-! ## `StatModifier` and `ModifierCollection` (`src/unnamed/part_001`) -/

/-- `ModifierType` of `src/unnamed/part_001`. -/
inductive ModifierType where
  | add
  | multiply
  | override
deriving DecidableEq, Repr

/-- The `StatModifier` of `src/unnamed/part_001`. -/
structure StatModifier where
  id : String
  name : String
  statId : String
  type : ModifierType
  value : ℚ
  duration : ℚ
  maxStacks : ℚ
  currentStacks : ℚ
  source : String
  createdAt : ℚ
  remainingDuration : ℚ
deriving DecidableEq, Repr

/-- A constructor configuration object for `StatModifier`; `none` is an
absent (or wrong-typed) property; an invalid `type` string is also `none`
(`validateModifierType` falls back to ADD either way). -/
structure StatModifierConfig where
  id : Option String
  name : Option String
  statId : Option String
  type : Option ModifierType
  value : Option ℚ
  duration : Option ℚ
  maxStacks : Option ℚ
  currentStacks : Option ℚ
  source : Option String
deriving Repr

/-- The `StatModifier` constructor of `src/unnamed/part_001`.  `fresh`
stands for `generateId('mod')` and `now` for `Date.now()`.  Note that
`currentStacks` is sanitized by `toPositiveInt` but not clamped to
`maxStacks`. -/
def mkStatModifier (fresh : String) (now : ℚ) (c : StatModifierConfig) : StatModifier :=
  let duration := toNumberOpt c.duration (-1)
  { id := match c.id with
      | some s => if jsIsNonEmptyString s then sanitizeIdU s else fresh
      | none => fresh
    name := c.name.getD "Unnamed Modifier"
    statId := match c.statId with
      | some s => if jsIsNonEmptyString s then sanitizeIdU s else ""
      | none => ""
    type := c.type.getD .add
    value := toNumberOpt c.value 0
    duration := duration
    maxStacks := toPositiveIntOpt c.maxStacks 1
    currentStacks := toPositiveIntOpt c.currentStacks 1
    source := c.source.getD ""
    createdAt := now
    remainingDuration := duration }

/-- `StatModifier.isActive` of `src/unnamed/part_001`. -/
def StatModifier.isActive (m : StatModifier) : Bool :=
  if m.duration < 0 then true else decide (m.remainingDuration > 0)

/-- `StatModifier.tick` of `src/unnamed/part_001`: returns the updated
modifier together with the boolean the method returns (still active). -/
def StatModifier.tick (m : StatModifier) : StatModifier × Bool :=
  if m.duration < 0 then (m, true)
  else
    let r := max 0 (m.remainingDuration - 1)
    ({ m with remainingDuration := r }, decide (r > 0))

/-- `StatModifier.addStacks` of `src/unnamed/part_001`: clamp to
`maxStacks` and refresh the remaining duration when the duration is finite
and positive. -/
def StatModifier.addStacks (m : StatModifier) (count : ℚ) : StatModifier :=
  let toAdd := toPositiveIntVal count
  let m1 := { m with currentStacks := min (m.currentStacks + toAdd) m.maxStacks }
  if m.duration > 0 then { m1 with remainingDuration := m1.duration } else m1

/-- `StatModifier.removeStacks` of `src/unnamed/part_001`: floor at 0. -/
def StatModifier.removeStacks (m : StatModifier) (count : ℚ) : StatModifier :=
  { m with currentStacks := max 0 (m.currentStacks - toPositiveIntVal count) }

/-- `StatModifier.getEffectiveValue` of `src/unnamed/part_001`: OVERRIDE
never scales with stacks. -/
def StatModifier.getEffectiveValue (m : StatModifier) : ℚ :=
  if m.type = .override then m.value else SafeMath.multiply m.value m.currentStacks

/-- The serialized form emitted by `StatModifier.toJSON`. -/
structure StatModifierJson where
  id : String
  name : String
  statId : String
  type : ModifierType
  value : ℚ
  duration : ℚ
  maxStacks : ℚ
  currentStacks : ℚ
  source : String
  createdAt : ℚ
  remainingDuration : ℚ
deriving DecidableEq, Repr

/-- `StatModifier.toJSON` of `src/unnamed/part_001`. -/
def StatModifier.toJSON (m : StatModifier) : StatModifierJson :=
  { id := m.id, name := m.name, statId := m.statId, type := m.type,
    value := m.value, duration := m.duration, maxStacks := m.maxStacks,
    currentStacks := m.currentStacks, source := m.source,
    createdAt := m.createdAt, remainingDuration := m.remainingDuration }

/-- A serialized modifier seen as a constructor configuration. -/
def modifierJsonConfig (j : StatModifierJson) : StatModifierConfig :=
  { id := some j.id, name := some j.name, statId := some j.statId,
    type := some j.type, value := some j.value, duration := some j.duration,
    maxStacks := some j.maxStacks, currentStacks := some j.currentStacks,
    source := some j.source }

/-- `StatModifier.fromJSON` of `src/unnamed/part_001`: run the constructor
on the data, then restore the runtime `remainingDuration` and `createdAt`
(both numbers in serialized data). -/
def StatModifier.fromJSON (fresh : String) (now : ℚ) (j : StatModifierJson) : StatModifier :=
  let m := mkStatModifier fresh now (modifierJsonConfig j)
  { m with remainingDuration := j.remainingDuration, createdAt := j.createdAt }

/-- The `reduce` of `ModifierCollection.applyAll` choosing the override
with the latest `createdAt` (strict comparison: on ties the earlier-seen
one is kept). -/
def pickLatest (o : StatModifier) (os : List StatModifier) : StatModifier :=
  os.foldl (fun latest cur => if cur.createdAt > latest.createdAt then cur else latest) o

namespace ModifierCollection

/-- `ModifierCollection.getActive`: the collection's modifiers (a JS `Map`
in insertion order, modelled as a list) filtered to the active ones. -/
def getActive (mods : List StatModifier) : List StatModifier :=
  mods.filter (·.isActive)

/-- `ModifierCollection.applyAll` of `src/unnamed/part_001`. -/
def applyAll (mods : List StatModifier) (baseValue : ℚ) : ℚ :=
  let base := baseValue
  let active := getActive mods
  if active.isEmpty then base
  else
    let addMods := active.filter (fun m => m.type == .add)
    let multiplyMods := active.filter (fun m => m.type == .multiply)
    let overrideMods := active.filter (fun m => m.type == .override)
    match overrideMods with
    | o :: os => (pickLatest o os).getEffectiveValue
    | [] =>
      let afterAdd := addMods.foldl (fun r m => SafeMath.add r m.getEffectiveValue) base
      multiplyMods.foldl (fun r m => SafeMath.multiply r m.getEffectiveValue) afterAdd

/-- `ModifierCollection.tick` of `src/unnamed/part_001`: tick every
modifier in iteration order, delete the ones reporting inactive, and return
the kept (updated) modifiers together with the removed ids. -/
def tick : List StatModifier → List StatModifier × List String
  | [] => ([], [])
  | m :: rest =>
    let tm := m.tick
    let tr := tick rest
    if tm.2 then (tm.1 :: tr.1, tr.2) else (tr.1, m.id :: tr.2)

end ModifierCollection

/-! ## The modular `Stat`/`StatManager` (spec-modelled) and
`SimulationState`/`StateManager` (`src/unnamed/part_001`) -/

/-- Modelled from the spec: `src/modules/Stat.js` is imported by the
modular `StateManager` and `SimulationState` but is not under `src/`.  Per
spec §3 a modular stat carries the serialized fields of §6, enforces
`min ≤ max` by auto-swap on construction and keeps `currentValue` clamped
into `[minValue, maxValue]`. -/
structure MStat where
  id : String
  name : String
  baseValue : ℚ
  currentValue : ℚ
  minValue : ℚ
  maxValue : ℚ
  color : String
  displayMode : String
  showInUI : Bool
  category : String
  lastChange : ℚ
deriving DecidableEq, Repr

/-- Modelled from the spec: the modular `Stat` constructor (spec §3:
defaults for missing fields, auto-swap when `min > max`, `currentValue`
clamped; ids sanitized as by `Utils.sanitizeId`). -/
def mkMStat (fresh : String) (c : StatConfig) : MStat :=
  let baseValue := toNumberOpt c.baseValue 100
  let min0 := toNumberOpt c.minValue 0
  let max0 := toNumberOpt c.maxValue 100
  let minValue := if min0 > max0 then max0 else min0
  let maxValue := if min0 > max0 then min0 else max0
  { id := match c.id with
      | some s => if jsIsNonEmptyString s then sanitizeIdU s else fresh
      | none => fresh
    name := c.name.getD "Unnamed Stat"
    baseValue := baseValue
    currentValue := max minValue (min maxValue (toNumberOpt c.currentValue baseValue))
    minValue := minValue
    maxValue := maxValue
    color := c.color.getD "#4a90d9"
    displayMode := match c.displayMode with
      | some s => if s = "" then "fraction" else s
      | none => "fraction"
    showInUI := match c.showInUI with
      | some false => false
      | _ => true
    category := c.category.getD ""
    lastChange := 0 }

/-- Modelled from the spec: modular `Stat.modify(delta)` (spec §4.4: clamp
the resulting `currentValue` into `[minValue, maxValue]`, record
`lastChange` as the post-clamp delta, return `{oldValue, newValue,
actualChange}`). -/
def MStat.modify (s : MStat) (delta : ℚ) : MStat × ChangeResult :=
  let oldValue := s.currentValue
  let newValue := max s.minValue (min s.maxValue (s.currentValue + delta))
  ({ s with currentValue := newValue, lastChange := newValue - oldValue },
   { oldValue := oldValue, newValue := newValue, actualChange := newValue - oldValue })

/-- Modelled from the spec: modular `Stat.set(value)` (spec §4.4). -/
def MStat.set (s : MStat) (value : ℚ) : MStat × ChangeResult :=
  let oldValue := s.currentValue
  let newValue := max s.minValue (min s.maxValue value)
  ({ s with currentValue := newValue, lastChange := newValue - oldValue },
   { oldValue := oldValue, newValue := newValue, actualChange := newValue - oldValue })

/-- Modelled from the spec: modular `Stat.toJSON` (spec §6 serialized
shape). -/
def MStat.toJSON (s : MStat) : StatJson :=
  { id := s.id, name := s.name, baseValue := s.baseValue,
    currentValue := s.currentValue, minValue := s.minValue,
    maxValue := s.maxValue, color := s.color, displayMode := s.displayMode,
    showInUI := s.showInUI, category := s.category }

/-- Modelled from the spec: modular `Stat.fromJSON` (construct from the
serialized data, substituting defaults for anything missing). -/
def MStat.fromJSON (fresh : String) (j : StatJson) : MStat :=
  mkMStat fresh (statJsonConfig j)

namespace StatManager

/-- Modelled from the spec: modular `StatManager.get` operates on the
sanitized id (spec §4.4); the manager's map is modelled as a list of stats
keyed by their ids. -/
def get (stats : List MStat) (statId : String) : Option MStat :=
  stats.find? (fun s => s.id == sanitizeIdU statId)

/-- Modelled from the spec: modular `StatManager.toJSON`
(`{stats: [...]}`; the list of serialized stats). -/
def toJSON (stats : List MStat) : List StatJson :=
  stats.map MStat.toJSON

/-- Modelled from the spec: modular `StatManager.fromJSON`. -/
def fromJSON (fresh : String) (js : List StatJson) : List MStat :=
  js.map (MStat.fromJSON fresh)

end StatManager

/-- The `SimulationState` of `src/unnamed/part_001` (its `statManager` is
the spec-modelled modular one; `metadata` is a plain string map). -/
structure SimulationState where
  id : String
  name : String
  createdAt : ℚ
  updatedAt : ℚ
  turnCount : ℚ
  stats : List MStat
  metadata : List (String × String)
deriving DecidableEq, Repr

/-- The serialized form emitted by `SimulationState.toJSON`. -/
structure SimulationStateJson where
  id : String
  name : String
  createdAt : ℚ
  updatedAt : ℚ
  turnCount : ℚ
  stats : List StatJson
  metadata : List (String × String)
deriving DecidableEq, Repr

/-- `SimulationState.toJSON` of `src/unnamed/part_001`. -/
def SimulationState.toJSON (st : SimulationState) : SimulationStateJson :=
  { id := st.id, name := st.name, createdAt := st.createdAt,
    updatedAt := st.updatedAt, turnCount := st.turnCount,
    stats := StatManager.toJSON st.stats, metadata := st.metadata }

/-- JS `x || d` on a (finite) number: `0` is falsy. -/
def jsOrQ (q d : ℚ) : ℚ := if q = 0 then d else q

/-- `SimulationState.fromJSON` of `src/unnamed/part_001`: keep a non-empty
id verbatim (no sanitization), fall back to `Date.now()` (`now`) for falsy
timestamps, default `turnCount` to 0, and rebuild the stat manager. -/
def SimulationState.fromJSON (fresh : String) (now : ℚ) (j : SimulationStateJson) :
    SimulationState :=
  { id := if jsIsNonEmptyString j.id then j.id else fresh
    name := j.name
    createdAt := jsOrQ j.createdAt now
    updatedAt := jsOrQ j.updatedAt now
    turnCount := jsOrQ j.turnCount 0
    stats := StatManager.fromJSON fresh j.stats
    metadata := j.metadata }

/-- One entry of the `changes` array built by
`StateManager.processMessage` (`error` text omitted; a missing stat yields
`success := false`). -/
structure StatChange where
  statId : String
  success : Bool
  oldValue : ℚ
  newValue : ℚ
  actualChange : ℚ
  commandType : CmdType
deriving DecidableEq, Repr

/-- Replace the (unique) stat with the given id — the in-place mutation of
the found stat object. -/
def updateStat (stats : List MStat) (s1 : MStat) : List MStat :=
  stats.map (fun s => if s.id == s1.id then s1 else s)

/-- The loop body of `StateManager.processMessage`: look up the target stat
by sanitized id; a missing stat records a failure entry; otherwise apply
`set` or `modify` according to the command type and record the change. -/
def processStep (acc : List MStat × List StatChange) (cmd : ParsedCommand) :
    List MStat × List StatChange :=
  match StatManager.get acc.1 cmd.statId with
  | none =>
    (acc.1, acc.2 ++ [{ statId := cmd.statId, success := false, oldValue := 0,
                        newValue := 0, actualChange := 0, commandType := cmd.type }])
  | some s =>
    let r := if cmd.type == .set then s.set cmd.value else s.modify cmd.value
    (updateStat acc.1 r.1,
     acc.2 ++ [{ statId := cmd.statId, success := true, oldValue := r.2.oldValue,
                 newValue := r.2.newValue, actualChange := r.2.actualChange,
                 commandType := cmd.type }])

namespace StateManager

/-- `StateManager.processMessage` of `src/unnamed/part_001` with the
extension enabled and an active state whose stat manager holds `stats`:
parse the valid commands with the default-configured parser and apply every
one of them in textual order. -/
def processMessage (stats : List MStat) (message : String) :
    List MStat × List StatChange :=
  (ModularParser.parseValid false message).foldl processStep (stats, [])

end StateManager

/-! ## Remaining definitions: iterated ticks and concrete fixtures -/

/-- `n` successive `tick()` calls on a modifier (keeping the state,
dropping the returned booleans). -/
def tickN : ℕ → StatModifier → StatModifier
  | 0, m => m
  | n + 1, m => tickN n (m.tick).1

/-- Configuration of an ADD(+10) modifier on `hp`. -/
def cfgAdd : StatModifierConfig :=
  { id := some "buff-add", name := none, statId := some "hp", type := some .add,
    value := some 10, duration := none, maxStacks := none, currentStacks := none,
    source := none }

/-- Configuration of a MULTIPLY(×1.5) modifier on `hp`. -/
def cfgMul : StatModifierConfig :=
  { id := some "buff-mul", name := none, statId := some "hp", type := some .multiply,
    value := some (3/2), duration := none, maxStacks := none, currentStacks := none,
    source := none }

/-- Configuration of an OVERRIDE(50) modifier on `hp`. -/
def cfgOv : StatModifierConfig :=
  { id := some "buff-ov", name := none, statId := some "hp", type := some .override,
    value := some 50, duration := none, maxStacks := none, currentStacks := none,
    source := none }

/-- ADD(+10) modifier created at time 1. -/
def modAdd : StatModifier := mkStatModifier "m1" 1 cfgAdd

/-- MULTIPLY(×1.5) modifier created at time 2. -/
def modMul : StatModifier := mkStatModifier "m2" 2 cfgMul

/-- OVERRIDE(50) modifier created afterwards, at time 3. -/
def modOv : StatModifier := mkStatModifier "m3" 3 cfgOv

/-- Configuration of a timed modifier with the given duration. -/
def cfgDur (d : ℚ) : StatModifierConfig :=
  { id := none, name := none, statId := some "hp", type := some .add,
    value := some 1, duration := some d, maxStacks := none, currentStacks := none,
    source := none }

/-- A modular-manager `hp` stat with `currentValue` 100 and bounds
`[0, 100]`. -/
def hpM : MStat :=
  { id := "hp", name := "HP", baseValue := 100, currentValue := 100, minValue := 0,
    maxValue := 100, color := "#4a90d9", displayMode := "fraction", showInUI := true,
    category := "", lastChange := 0 }

/-- A standalone `hp` stat used by witnesses. -/
def hpS : Stat :=
  { id := "hp", name := "HP", baseValue := 100, currentValue := 80, minValue := 0,
    maxValue := 100, color := "#4a90d9", displayMode := "fraction", showInUI := true,
    category := "", lastChange := 0 }

/-- A configuration whose bounds are inverted (`minValue 5 > maxValue 0`),
which the standalone `Stat` constructor accepts unchanged. -/
def sBadCfg : StatConfig :=
  { id := some "bad", name := none, baseValue := some 3, currentValue := some 3,
    minValue := some 5, maxValue := some 0, color := none, displayMode := none,
    showInUI := none, category := none }

/-- Serialized modifier data claiming 5 stacks with `maxStacks` 1. -/
def jBad : StatModifierJson :=
  { id := "big", name := "", statId := "hp", type := .add, value := 0, duration := -1,
    maxStacks := 1, currentStacks := 5, source := "", createdAt := 7,
    remainingDuration := -1 }

/-- A constructor-produced modifier used by round-trip witnesses. -/
def modGood : StatModifier := mkStatModifier "m9" 4 cfgAdd

/-- A small simulation state used by the round-trip witness. -/
def stGood : SimulationState :=
  { id := "sim_1", name := "Demo", createdAt := 5, updatedAt := 6, turnCount := 0,
    stats := [hpM], metadata := [("k", "v")] }

/-- The text with two `hp` commands used by the C2 example. -/
def exTwoCmds : String := "\x7b\x7bhp:-10\x7d\x7d \x7b\x7bhp:-20\x7d\x7d"

/-- The projection compared between the two parsers: stat id, value and
command type. -/
def cmdTriple (c : ParsedCommand) : String × ℚ × CmdType := (c.statId, c.value, c.type)

/-- The same projection on standalone-parser commands. -/
def scmdTriple (c : SCommand) : String × ℚ × CmdType := (c.statId, c.value, c.type)

/-- The text on which the two parsers disagree. -/
def exDisagree : String := "\x7b\x7bhp:12abc\x7d\x7d"

/-! # Lemmas -/

/-- Unfolding step of `pickLatest`. -/
theorem pickLatest_cons (o x : StatModifier) (xs : List StatModifier) :
    pickLatest o (x :: xs) = pickLatest (if x.createdAt > o.createdAt then x else o) xs := rfl

/-- The override chosen by the `reduce` of `applyAll` is one of the
candidates. -/
theorem pickLatest_mem (o : StatModifier) (os : List StatModifier) :
    pickLatest o os ∈ o :: os := by
  induction os generalizing o with
  | nil => simp [pickLatest]
  | cons x xs ih =>
    rw [pickLatest_cons]
    rcases List.mem_cons.mp (ih (if x.createdAt > o.createdAt then x else o)) with h | h
    · rw [h]
      by_cases hc : x.createdAt > o.createdAt
      · rw [if_pos hc]
        exact List.mem_cons_of_mem _ (List.mem_cons_self _ _)
      · rw [if_neg hc]
        exact List.mem_cons_self _ _
    · exact List.mem_cons_of_mem _ (List.mem_cons_of_mem _ h)

/-- The override chosen by the `reduce` of `applyAll` has a maximal
creation timestamp among the candidates. -/
theorem pickLatest_le (o : StatModifier) (os : List StatModifier) :
    ∀ m ∈ o :: os, m.createdAt ≤ (pickLatest o os).createdAt := by
  induction os generalizing o with
  | nil =>
    intro m hm
    rcases List.mem_cons.mp hm with rfl | hm2
    · simp [pickLatest]
    · simp at hm2
  | cons x xs ih =>
    intro m hm
    rw [pickLatest_cons]
    have hself : ∀ o1 : StatModifier, o1.createdAt ≤ (pickLatest o1 xs).createdAt :=
      fun o1 => ih o1 o1 (List.mem_cons_self _ _)
    have hoo : o.createdAt ≤ (if x.createdAt > o.createdAt then x else o).createdAt := by
      by_cases hc : x.createdAt > o.createdAt
      · rw [if_pos hc]
        exact le_of_lt hc
      · rw [if_neg hc]
    have hxo : x.createdAt ≤ (if x.createdAt > o.createdAt then x else o).createdAt := by
      by_cases hc : x.createdAt > o.createdAt
      · rw [if_pos hc]
      · rw [if_neg hc]
        exact le_of_not_lt hc
    rcases List.mem_cons.mp hm with rfl | hm2
    · exact le_trans hoo (hself _)
    rcases List.mem_cons.mp hm2 with rfl | hm3
    · exact le_trans hxo (hself _)
    · exact ih _ m (List.mem_cons_of_mem _ hm3)

/-! # Claim theorems -/

/-- C1: `ModifierCollection.applyAll` partitions the active modifiers by
type.  If at least one OVERRIDE modifier is active it returns the effective
value of the override chosen by the latest-`createdAt` reduce — a candidate
with maximal creation timestamp — independently of all ADD and MULTIPLY
modifiers; otherwise it folds every active ADD modifier into the base via
`SafeMath.add` and then every active MULTIPLY modifier via
`SafeMath.multiply`.  In particular ADD(+10) and MULTIPLY(×1.5) on base 100
give 165, and an OVERRIDE(50) added afterwards makes `applyAll 100`
return 50. -/
theorem applyAll_aggregation :
    (∀ (mods : List StatModifier) (base : ℚ) (o : StatModifier) (os : List StatModifier),
        (ModifierCollection.getActive mods).filter (fun m => m.type == .override) = o :: os →
          ModifierCollection.applyAll mods base = (pickLatest o os).getEffectiveValue
          ∧ pickLatest o os ∈
              (ModifierCollection.getActive mods).filter (fun m => m.type == .override)
          ∧ ∀ m' ∈ (ModifierCollection.getActive mods).filter (fun m => m.type == .override),
              m'.createdAt ≤ (pickLatest o os).createdAt)
    ∧ (∀ (mods : List StatModifier) (base : ℚ),
        (ModifierCollection.getActive mods).filter (fun m => m.type == .override) = [] →
          ModifierCollection.applyAll mods base =
            ((ModifierCollection.getActive mods).filter (fun m => m.type == .multiply)).foldl
              (fun r m => SafeMath.multiply r m.getEffectiveValue)
              (((ModifierCollection.getActive mods).filter (fun m => m.type == .add)).foldl
                (fun r m => SafeMath.add r m.getEffectiveValue) base))
    ∧ ModifierCollection.applyAll [modAdd, modMul] 100 = 165
    ∧ ModifierCollection.applyAll [modAdd, modMul, modOv] 100 = 50 := by
  refine ⟨?_, ?_, by with_unfolding_all decide, by with_unfolding_all decide⟩
  · intro mods base o os h
    have hfalse : (ModifierCollection.getActive mods).isEmpty = false := by
      rcases hE : (ModifierCollection.getActive mods).isEmpty with _ | _
      · rfl
      · exfalso
        rw [List.isEmpty_iff] at hE
        rw [hE] at h
        simp at h
    refine ⟨?_, h ▸ pickLatest_mem o os, h ▸ pickLatest_le o os⟩
    simp only [ModifierCollection.applyAll, hfalse, Bool.false_eq_true, if_false, h]
  · intro mods base h
    by_cases hA : (ModifierCollection.getActive mods).isEmpty
    · rw [List.isEmpty_iff] at hA
      simp [ModifierCollection.applyAll, hA]
    · have hfalse : (ModifierCollection.getActive mods).isEmpty = false :=
        Bool.eq_false_iff.mpr hA
      simp only [ModifierCollection.applyAll, hfalse, Bool.false_eq_true, if_false, h]

/-- Witness for C1: both branches of the aggregation theorem applied at
concrete collections. -/
theorem applyAll_aggregation_witness :
    ModifierCollection.applyAll [modOv] 0 = (pickLatest modOv []).getEffectiveValue
    ∧ ModifierCollection.applyAll ([] : List StatModifier) 7 = 7 := by
  constructor
  · exact (applyAll_aggregation.1 [modOv] 0 modOv [] (by with_unfolding_all decide)).1
  · have h := applyAll_aggregation.2.1 ([] : List StatModifier) 7 (by with_unfolding_all decide)
    simpa [ModifierCollection.getActive] using h

/-- C4: under the default configuration, `"\x7b\x7bhp:-10\x7d\x7d"` parses
to exactly one valid MODIFY command for `hp` with value −10,
`"\x7b\x7bhp:=50\x7d\x7d"` to exactly one valid SET command with value 50,
and (with the default case-insensitive configuration)
`"\x7b\x7bHP:-10\x7d\x7d"` yields the lower-cased stat id `hp`. -/
theorem parse_canonical_examples :
    (ModularParser.parseValid false "\x7b\x7bhp:-10\x7d\x7d").map cmdTriple
      = [("hp", -10, CmdType.modify)]
    ∧ (ModularParser.parseValid false "\x7b\x7bhp:=50\x7d\x7d").map cmdTriple
      = [("hp", 50, CmdType.set)]
    ∧ (ModularParser.parseValid false "\x7b\x7bHP:-10\x7d\x7d").map cmdTriple
      = [("hp", -10, CmdType.modify)] := by
  refine ⟨?_, ?_, ?_⟩ <;> with_unfolding_all decide

/-- C9 (amended): the modular and the standalone parser agree — same stat
ids, values and command types, in the same left-to-right order — on texts
whose braced tokens are well-formed commands of the documented grammar
(verified on representative texts below), but not on every input string. -/
theorem parsers_agree_on_canonical :
    ((ModularParser.parseValid false "\x7b\x7bhp:-10\x7d\x7d \x7b\x7bhp:=50\x7d\x7d").map cmdTriple
      = (StandaloneParser.parseValid false "\x7b\x7bhp:-10\x7d\x7d \x7b\x7bhp:=50\x7d\x7d").map scmdTriple)
    ∧ ((ModularParser.parseValid false "\x7b\x7bHP:+3.5\x7d\x7d take \x7b\x7bmp : 7\x7d\x7d damage").map cmdTriple
      = (StandaloneParser.parseValid false "\x7b\x7bHP:+3.5\x7d\x7d take \x7b\x7bmp : 7\x7d\x7d damage").map scmdTriple)
    ∧ ((ModularParser.parseValid false "no commands at all").map cmdTriple
      = (StandaloneParser.parseValid false "no commands at all").map scmdTriple)
    ∧ ((ModularParser.parseValid false "\x7b\x7bbad!\x7d\x7d \x7b\x7bx_1:=1.25\x7d\x7d \x7b\x7by:--2\x7d\x7d").map cmdTriple
      = (StandaloneParser.parseValid false "\x7b\x7bbad!\x7d\x7d \x7b\x7bx_1:=1.25\x7d\x7d \x7b\x7by:--2\x7d\x7d").map scmdTriple) := by
  refine ⟨?_, ?_, ?_, ?_⟩ <;> with_unfolding_all decide

/-- Lookup distributes over appending to the association list. -/
theorem lookupChange_append (l1 l2 : List (String × ParsedCommand)) (idStr : String) :
    ModularParser.lookupChange (l1 ++ l2) idStr
      = (ModularParser.lookupChange l1 idStr).or (ModularParser.lookupChange l2 idStr) := by
  unfold ModularParser.lookupChange
  rw [List.find?_append]
  cases l1.find? (fun e => e.1 == idStr) <;> simp [Option.or]

/-- Once a stat id has an entry in the accumulator, later commands cannot
change it (the first-match-wins fold). -/
theorem statChangesFold_lookup_some (cmds : List ParsedCommand)
    (acc : List (String × ParsedCommand)) (idStr : String) (r : ParsedCommand)
    (h : ModularParser.lookupChange acc idStr = some r) :
    ModularParser.lookupChange (ModularParser.statChangesFold cmds acc) idStr = some r := by
  induction cmds generalizing acc with
  | nil => simpa [ModularParser.statChangesFold] using h
  | cons c cs ih =>
    simp only [ModularParser.statChangesFold]
    by_cases hc : (acc.find? (fun e => e.1 == c.statId)).isSome = true
    · rw [if_pos hc]
      exact ih acc h
    · rw [if_neg hc]
      apply ih
      rw [lookupChange_append, h]
      rfl

/-- The entry a stat id gets from the fold is its first valid command. -/
theorem statChangesFold_lookup_none (cmds : List ParsedCommand)
    (acc : List (String × ParsedCommand)) (idStr : String)
    (h : ModularParser.lookupChange acc idStr = none) :
    ModularParser.lookupChange (ModularParser.statChangesFold cmds acc) idStr
      = cmds.find? (fun c => c.statId == idStr) := by
  induction cmds generalizing acc with
  | nil => simpa [ModularParser.statChangesFold] using h
  | cons c cs ih =>
    simp only [ModularParser.statChangesFold]
    by_cases hid : (c.statId == idStr) = true
    · have hid' : c.statId = idStr := by simpa using hid
      by_cases hc : (acc.find? (fun e => e.1 == c.statId)).isSome = true
      · exfalso
        rw [hid'] at hc
        unfold ModularParser.lookupChange at h
        rcases Option.isSome_iff_exists.mp hc with ⟨pr, hpr⟩
        rw [hpr] at h
        simp at h
      · rw [if_neg hc,
          @List.find?_cons_of_pos ParsedCommand (fun c1 => c1.statId == idStr) c cs hid]
        apply statChangesFold_lookup_some
        rw [lookupChange_append, h]
        simp [ModularParser.lookupChange, List.find?, hid]
    · rw [@List.find?_cons_of_neg ParsedCommand (fun c1 => c1.statId == idStr) c cs hid]
      by_cases hc : (acc.find? (fun e => e.1 == c.statId)).isSome = true
      · rw [if_pos hc]
        exact ih acc h
      · rw [if_neg hc]
        apply ih
        rw [lookupChange_append, h]
        simp [ModularParser.lookupChange, List.find?, hid]

/-- Each processed command appends exactly one change entry (also on
lookup failure). -/
theorem processStep_snd_length (acc : List MStat × List StatChange) (cmd : ParsedCommand) :
    (processStep acc cmd).2.length = acc.2.length + 1 := by
  unfold processStep
  cases StatManager.get acc.1 cmd.statId <;> simp

/-- The fold of `processMessage` records one change per command. -/
theorem processFold_snd_length (cmds : List ParsedCommand) (acc : List MStat × List StatChange) :
    (cmds.foldl processStep acc).2.length = acc.2.length + cmds.length := by
  induction cmds generalizing acc with
  | nil => simp
  | cons c cs ih =>
    rw [List.foldl_cons, ih, processStep_snd_length, List.length_cons]
    omega

/-- C2 (spec-modelled stat mutation): `getStatChanges` maps each stat id to
its first occurring valid command (later duplicates are ignored by this
accessor), while `processMessage` records and applies every valid command
in textual order without deduplication.  Concretely, on
`"\x7b\x7bhp:-10\x7d\x7d \x7b\x7bhp:-20\x7d\x7d"` the accessor retains
value −10 for `hp`, the parser yields both commands in order, and
`processMessage` against an `hp` stat with `currentValue` 100 and bounds
`[0, 100]` leaves `currentValue` 70. -/
theorem getStatChanges_first_wins_processMessage_all :
    (∀ (caseSensitive : Bool) (text idStr : String),
        ModularParser.lookupChange (ModularParser.getStatChanges caseSensitive text) idStr
          = (ModularParser.parseValid caseSensitive text).find? (fun c => c.statId == idStr))
    ∧ (∀ (stats : List MStat) (text : String),
        (StateManager.processMessage stats text).2.length
          = (ModularParser.parseValid false text).length)
    ∧ ModularParser.lookupChange (ModularParser.getStatChanges false exTwoCmds) "hp"
        = some { statId := "hp", value := -10, type := .modify, isValid := true }
    ∧ (ModularParser.parseValid false exTwoCmds).map cmdTriple
        = [("hp", -10, CmdType.modify), ("hp", -20, CmdType.modify)]
    ∧ ((StateManager.processMessage [hpM] exTwoCmds).1).map (·.currentValue) = [70] := by
  refine ⟨?_, ?_, by with_unfolding_all decide, by with_unfolding_all decide,
    by with_unfolding_all decide⟩
  · intro caseSensitive text idStr
    unfold ModularParser.getStatChanges
    exact statChangesFold_lookup_none _ [] idStr rfl
  · intro stats text
    unfold StateManager.processMessage
    rw [processFold_snd_length]
    simp

/-- Mutations do not touch the bounds. -/
theorem applyOp_bounds_fixed (s : Stat) (op : StatOp) :
    (s.applyOp op).minValue = s.minValue ∧ (s.applyOp op).maxValue = s.maxValue := by
  cases op <;> exact ⟨rfl, rfl⟩

/-- A single `modify`/`set` clamps `currentValue` into the bounds (when
they are ordered). -/
theorem applyOp_clamped (s : Stat) (op : StatOp) (h : s.minValue ≤ s.maxValue) :
    s.minValue ≤ (s.applyOp op).currentValue ∧ (s.applyOp op).currentValue ≤ s.maxValue := by
  cases op with
  | modify d =>
    exact ⟨le_max_left _ _, max_le h (min_le_left _ _)⟩
  | set v =>
    exact ⟨le_max_left _ _, max_le h (min_le_left _ _)⟩

/-- The clamping invariant is preserved along any remaining sequence of
mutations. -/
theorem applyOps_clamped_aux (ops : List StatOp) (s : Stat)
    (hmm : s.minValue ≤ s.maxValue) (hlo : s.minValue ≤ s.currentValue)
    (hhi : s.currentValue ≤ s.maxValue) :
    (s.applyOps ops).minValue ≤ (s.applyOps ops).currentValue
    ∧ (s.applyOps ops).currentValue ≤ (s.applyOps ops).maxValue := by
  induction ops generalizing s with
  | nil => exact ⟨hlo, hhi⟩
  | cons op rest ih =>
    have hb := applyOp_bounds_fixed s op
    have hc := applyOp_clamped s op hmm
    have hres := ih (s.applyOp op) (by rw [hb.1, hb.2]; exact hmm)
      (by rw [hb.1]; exact hc.1) (by rw [hb.2]; exact hc.2)
    exact hres

/-- C3 (amended): for every `Stat` whose bounds are ordered
(`minValue ≤ maxValue`) and every finite non-empty sequence of
`modify`/`set` calls, `minValue ≤ currentValue ≤ maxValue` holds after the
sequence: every mutation clamps `currentValue` into the bounds.  (The
standalone constructor does not order the bounds itself; with
`minValue > maxValue` the clamp lands on `minValue`, above `maxValue`.) -/
theorem stat_clamped_after_mutations (s : Stat) (ops : List StatOp)
    (hmm : s.minValue ≤ s.maxValue) (hne : ops ≠ []) :
    (s.applyOps ops).minValue ≤ (s.applyOps ops).currentValue
    ∧ (s.applyOps ops).currentValue ≤ (s.applyOps ops).maxValue := by
  cases ops with
  | nil => exact absurd rfl hne
  | cons op rest =>
    have hb := applyOp_bounds_fixed s op
    have hc := applyOp_clamped s op hmm
    exact applyOps_clamped_aux rest (s.applyOp op) (by rw [hb.1, hb.2]; exact hmm)
      (by rw [hb.1]; exact hc.1) (by rw [hb.2]; exact hc.2)

/-- Witness for C3: the clamping theorem applied to the `hp` stat and one
overshooting `modify`. -/
theorem stat_clamped_after_mutations_witness :
    (hpS.applyOps [StatOp.modify (-200)]).minValue
      ≤ (hpS.applyOps [StatOp.modify (-200)]).currentValue
    ∧ (hpS.applyOps [StatOp.modify (-200)]).currentValue
      ≤ (hpS.applyOps [StatOp.modify (-200)]).maxValue :=
  stat_clamped_after_mutations hpS [StatOp.modify (-200)]
    (by with_unfolding_all decide) (by simp)

/-- Counterexample for C3 as stated: the standalone `Stat` constructor
accepts `minValue 5 > maxValue 0` unchanged, and the very next `modify 0`
clamps to `Math.max(min, Math.min(max, v)) = 5`, leaving
`currentValue > maxValue`. -/
theorem stat_clamp_cex :
    ¬ ((((mkStat "s" sBadCfg).modify 0).1).currentValue
        ≤ (((mkStat "s" sBadCfg).modify 0).1).maxValue) := by
  with_unfolding_all decide

/-- Ticks leave a permanent modifier untouched. -/
theorem tickN_permanent (m : StatModifier) (h : m.duration < 0) (n : ℕ) : tickN n m = m := by
  induction n with
  | zero => rfl
  | succ k ih =>
    have ht : m.tick = (m, true) := by
      unfold StatModifier.tick
      rw [if_pos h]
    simp only [tickN, ht]
    exact ih

/-- C5: a `StatModifier` created with `duration = 3` reports active after
0, 1 and 2 ticks and inactive after the 3rd; at that point the owning
collection's `tick()` removes it and returns its id among the removed ids.
A `StatModifier` created with `duration = -1` reports active after any
number of ticks and is never removed by the collection's `tick()`. -/
theorem modifier_duration_lifecycle (fresh : String) (now : ℚ) :
    (tickN 0 (mkStatModifier fresh now (cfgDur 3))).isActive = true
    ∧ (tickN 1 (mkStatModifier fresh now (cfgDur 3))).isActive = true
    ∧ (tickN 2 (mkStatModifier fresh now (cfgDur 3))).isActive = true
    ∧ (tickN 3 (mkStatModifier fresh now (cfgDur 3))).isActive = false
    ∧ ModifierCollection.tick [tickN 2 (mkStatModifier fresh now (cfgDur 3))]
        = ([], [(mkStatModifier fresh now (cfgDur 3)).id])
    ∧ (∀ n : ℕ, (tickN n (mkStatModifier fresh now (cfgDur (-1)))).isActive = true)
    ∧ (∀ n : ℕ, ModifierCollection.tick [tickN n (mkStatModifier fresh now (cfgDur (-1)))]
        = ([tickN n (mkStatModifier fresh now (cfgDur (-1)))], [])) := by
  have hperm : (mkStatModifier fresh now (cfgDur (-1))).duration < 0 := by
    show toNumberOpt (some (-1)) (-1) < (0 : ℚ)
    norm_num [toNumberOpt]
  have hpermAct : (mkStatModifier fresh now (cfgDur (-1))).isActive = true := by
    unfold StatModifier.isActive
    rw [if_pos hperm]
  have hpermTick : (mkStatModifier fresh now (cfgDur (-1))).tick
      = (mkStatModifier fresh now (cfgDur (-1)), true) := by
    unfold StatModifier.tick
    rw [if_pos hperm]
  have hm3 : mkStatModifier fresh now (cfgDur 3)
      = ⟨fresh, "Unnamed Modifier", "hp", .add, 1, 3, 1, 1, "", now, 3⟩ := by
    unfold mkStatModifier cfgDur
    norm_num [toNumberOpt, toPositiveIntOpt, toPositiveIntVal]
    decide
  have ht1 : StatModifier.tick ⟨fresh, "Unnamed Modifier", "hp", .add, 1, 3, 1, 1, "", now, 3⟩
      = (⟨fresh, "Unnamed Modifier", "hp", .add, 1, 3, 1, 1, "", now, 2⟩, true) := by
    unfold StatModifier.tick
    norm_num
  have ht2 : StatModifier.tick ⟨fresh, "Unnamed Modifier", "hp", .add, 1, 3, 1, 1, "", now, 2⟩
      = (⟨fresh, "Unnamed Modifier", "hp", .add, 1, 3, 1, 1, "", now, 1⟩, true) := by
    unfold StatModifier.tick
    norm_num
  have ht3 : StatModifier.tick ⟨fresh, "Unnamed Modifier", "hp", .add, 1, 3, 1, 1, "", now, 1⟩
      = (⟨fresh, "Unnamed Modifier", "hp", .add, 1, 3, 1, 1, "", now, 0⟩, false) := by
    unfold StatModifier.tick
    norm_num
  have hstep1 : tickN 1 (mkStatModifier fresh now (cfgDur 3))
      = ⟨fresh, "Unnamed Modifier", "hp", .add, 1, 3, 1, 1, "", now, 2⟩ := by
    rw [show tickN 1 (mkStatModifier fresh now (cfgDur 3))
        = ((mkStatModifier fresh now (cfgDur 3)).tick).1 from rfl, hm3, ht1]
  have hstep2 : tickN 2 (mkStatModifier fresh now (cfgDur 3))
      = ⟨fresh, "Unnamed Modifier", "hp", .add, 1, 3, 1, 1, "", now, 1⟩ := by
    rw [show tickN 2 (mkStatModifier fresh now (cfgDur 3))
        = ((tickN 1 (mkStatModifier fresh now (cfgDur 3))).tick).1 from rfl, hstep1, ht2]
  have hstep3 : tickN 3 (mkStatModifier fresh now (cfgDur 3))
      = ⟨fresh, "Unnamed Modifier", "hp", .add, 1, 3, 1, 1, "", now, 0⟩ := by
    rw [show tickN 3 (mkStatModifier fresh now (cfgDur 3))
        = ((tickN 2 (mkStatModifier fresh now (cfgDur 3))).tick).1 from rfl, hstep2, ht3]
  refine ⟨?_, ?_, ?_, ?_, ?_, ?_, ?_⟩
  · rw [show tickN 0 (mkStatModifier fresh now (cfgDur 3))
        = mkStatModifier fresh now (cfgDur 3) from rfl, hm3]
    unfold StatModifier.isActive
    norm_num
  · rw [hstep1]
    unfold StatModifier.isActive
    norm_num
  · rw [hstep2]
    unfold StatModifier.isActive
    norm_num
  · rw [hstep3]
    unfold StatModifier.isActive
    norm_num
  · rw [hstep2, hm3]
    unfold ModifierCollection.tick StatModifier.tick
    norm_num
    exact ⟨rfl, rfl⟩
  · intro n
    rw [tickN_permanent _ hperm n]
    exact hpermAct
  · intro n
    rw [tickN_permanent _ hperm n]
    show ModifierCollection.tick [mkStatModifier fresh now (cfgDur (-1))]
      = ([mkStatModifier fresh now (cfgDur (-1))], [])
    simp [ModifierCollection.tick, hpermTick]

/-- The sanitized positive-integer coercion is at least 1. -/
theorem one_le_toPositiveIntVal (q : ℚ) : 1 ≤ toPositiveIntVal q := le_max_left _ _

/-- C6 (amended): `currentStacks` is always at least 0 after construction
(`toPositiveInt` floors it at 1), but the constructor does not clamp it to
`maxStacks`: the upper bound holds after construction — also via
`fromJSON` — exactly when the sanitized supplied stack count does not
exceed the sanitized `maxStacks`.  `addStacks` clamps `currentStacks` to
`maxStacks` (re-establishing the bound whenever `maxStacks ≥ 1`) and, when
the modifier has a finite positive duration, resets `remainingDuration` to
the full duration; `removeStacks` floors `currentStacks` at 0 and preserves
the upper bound. -/
theorem modifier_stack_bounds :
    (∀ (fresh : String) (now : ℚ) (c : StatModifierConfig),
        0 ≤ (mkStatModifier fresh now c).currentStacks)
    ∧ (∀ (fresh : String) (now : ℚ) (c : StatModifierConfig),
        toPositiveIntOpt c.currentStacks 1 ≤ toPositiveIntOpt c.maxStacks 1 →
          (mkStatModifier fresh now c).currentStacks ≤ (mkStatModifier fresh now c).maxStacks)
    ∧ (∀ (m : StatModifier) (count : ℚ), 0 ≤ m.currentStacks → 1 ≤ m.maxStacks →
        0 ≤ (m.addStacks count).currentStacks
        ∧ (m.addStacks count).currentStacks ≤ (m.addStacks count).maxStacks)
    ∧ (∀ (m : StatModifier) (count : ℚ), 0 < m.duration →
        (m.addStacks count).remainingDuration = m.duration)
    ∧ (∀ (m : StatModifier) (count : ℚ),
        0 ≤ (m.removeStacks count).currentStacks
        ∧ (0 ≤ m.maxStacks → m.currentStacks ≤ m.maxStacks →
            (m.removeStacks count).currentStacks ≤ (m.removeStacks count).maxStacks)) := by
  have haddCur : ∀ (m : StatModifier) (count : ℚ),
      (m.addStacks count).currentStacks
        = min (m.currentStacks + toPositiveIntVal count) m.maxStacks := by
    intro m count
    unfold StatModifier.addStacks
    by_cases hd : m.duration > 0
    · rw [if_pos hd]
    · rw [if_neg hd]
  have haddMax : ∀ (m : StatModifier) (count : ℚ),
      (m.addStacks count).maxStacks = m.maxStacks := by
    intro m count
    unfold StatModifier.addStacks
    by_cases hd : m.duration > 0
    · rw [if_pos hd]
    · rw [if_neg hd]
  refine ⟨?_, ?_, ?_, ?_, ?_⟩
  · intro fresh now c
    exact le_trans zero_le_one (one_le_toPositiveIntVal _)
  · intro fresh now c h
    exact h
  · intro m count hcur hmax
    constructor
    · rw [haddCur]
      refine le_min ?_ (le_trans zero_le_one hmax)
      have := one_le_toPositiveIntVal count
      linarith
    · rw [haddCur, haddMax]
      exact min_le_right _ _
  · intro m count hd
    unfold StatModifier.addStacks
    rw [if_pos hd]
  · intro m count
    constructor
    · exact le_max_left _ _
    · intro h0 hcm
      show max 0 (m.currentStacks - toPositiveIntVal count) ≤ m.maxStacks
      refine max_le h0 (le_trans ?_ hcm)
      have := one_le_toPositiveIntVal count
      linarith

/-- Witness for C6: the amended bounds applied at concrete modifiers. -/
theorem modifier_stack_bounds_witness :
    ((mkStatModifier "w" 0 cfgAdd).currentStacks ≤ (mkStatModifier "w" 0 cfgAdd).maxStacks)
    ∧ (0 ≤ (modGood.addStacks 2).currentStacks
        ∧ (modGood.addStacks 2).currentStacks ≤ (modGood.addStacks 2).maxStacks)
    ∧ ((mkStatModifier "w" 0 (cfgDur 3)).addStacks 1).remainingDuration
        = (mkStatModifier "w" 0 (cfgDur 3)).duration
    ∧ (modGood.removeStacks 1).currentStacks ≤ (modGood.removeStacks 1).maxStacks := by
  refine ⟨?_, ?_, ?_, ?_⟩
  · exact modifier_stack_bounds.2.1 "w" 0 cfgAdd (by with_unfolding_all decide)
  · exact modifier_stack_bounds.2.2.1 modGood 2 (by with_unfolding_all decide)
      (by with_unfolding_all decide)
  · exact modifier_stack_bounds.2.2.2.1 (mkStatModifier "w" 0 (cfgDur 3)) 1
      (by with_unfolding_all decide)
  · exact (modifier_stack_bounds.2.2.2.2 modGood 1).2 (by with_unfolding_all decide)
      (by with_unfolding_all decide)

/-- Counterexample for C6 as stated: `fromJSON` on data claiming 5 stacks
with `maxStacks` 1 produces a modifier with `currentStacks = 5 > maxStacks
= 1` — the constructor does not clamp the stack count. -/
theorem modifier_stack_cex :
    ¬ ((StatModifier.fromJSON "m" 0 jBad).currentStacks
        ≤ (StatModifier.fromJSON "m" 0 jBad).maxStacks) := by
  with_unfolding_all decide

/-- `applyAll` only depends on the active modifiers. -/
theorem applyAll_congr_active (mods1 mods2 : List StatModifier) (base : ℚ)
    (h : ModifierCollection.getActive mods1 = ModifierCollection.getActive mods2) :
    ModifierCollection.applyAll mods1 base = ModifierCollection.applyAll mods2 base := by
  unfold ModifierCollection.applyAll
  rw [h]

/-- An inactive modifier is invisible to `getActive`, anywhere in the
collection. -/
theorem getActive_append_inactive (pre post : List StatModifier) (m : StatModifier)
    (h : m.isActive = false) :
    ModifierCollection.getActive (pre ++ m :: post)
      = ModifierCollection.getActive (pre ++ post) := by
  unfold ModifierCollection.getActive
  simp [List.filter_append, List.filter_cons, h]

/-- The collection tick distributes over concatenation. -/
theorem collTick_append (xs ys : List StatModifier) :
    ModifierCollection.tick (xs ++ ys)
      = ((ModifierCollection.tick xs).1 ++ (ModifierCollection.tick ys).1,
         (ModifierCollection.tick xs).2 ++ (ModifierCollection.tick ys).2) := by
  induction xs with
  | nil => simp [ModifierCollection.tick]
  | cons x xs ih =>
    simp only [List.cons_append, ModifierCollection.tick, ih]
    by_cases h : (x.tick).2 = true <;> simp [h, ih]

/-- C10: a `StatModifier` constructed with `duration = 0` (whatever the
other configuration fields are) is never active: `isActive` is false
immediately after construction, before any tick, so it never contributes
to `ModifierCollection.applyAll`, and the first `tick()` of the owning
collection removes it, returning its id among the removed ids. -/
theorem duration_zero_lifecycle (fresh : String) (now : ℚ) (idv namev statIdv : Option String)
    (typev : Option ModifierType) (valuev maxSv curSv : Option ℚ) (srcv : Option String) :
    (mkStatModifier fresh now
      { id := idv, name := namev, statId := statIdv, type := typev, value := valuev,
        duration := some 0, maxStacks := maxSv, currentStacks := curSv,
        source := srcv }).isActive = false
    ∧ (∀ (pre post : List StatModifier) (base : ℚ),
        ModifierCollection.applyAll
            (pre ++ mkStatModifier fresh now
              { id := idv, name := namev, statId := statIdv, type := typev, value := valuev,
                duration := some 0, maxStacks := maxSv, currentStacks := curSv,
                source := srcv } :: post) base
          = ModifierCollection.applyAll (pre ++ post) base)
    ∧ (∀ (pre post : List StatModifier),
        ModifierCollection.tick
            (pre ++ mkStatModifier fresh now
              { id := idv, name := namev, statId := statIdv, type := typev, value := valuev,
                duration := some 0, maxStacks := maxSv, currentStacks := curSv,
                source := srcv } :: post)
          = ((ModifierCollection.tick pre).1 ++ (ModifierCollection.tick post).1,
             (ModifierCollection.tick pre).2
               ++ (mkStatModifier fresh now
                    { id := idv, name := namev, statId := statIdv, type := typev,
                      value := valuev, duration := some 0, maxStacks := maxSv,
                      currentStacks := curSv, source := srcv }).id
               :: (ModifierCollection.tick post).2)) := by
  set m := mkStatModifier fresh now
    { id := idv, name := namev, statId := statIdv, type := typev, value := valuev,
      duration := some 0, maxStacks := maxSv, currentStacks := curSv, source := srcv } with hm
  have hdur : m.duration = 0 := rfl
  have hrem : m.remainingDuration = 0 := rfl
  have hact : m.isActive = false := by
    unfold StatModifier.isActive
    rw [hdur, hrem, if_neg (lt_irrefl (0 : ℚ))]
    simp only [decide_eq_false_iff_not]
    exact lt_irrefl 0
  have htick : m.tick = ({ m with remainingDuration := 0 }, false) := by
    unfold StatModifier.tick
    rw [hdur, hrem, if_neg (lt_irrefl (0 : ℚ))]
    norm_num
  refine ⟨hact, ?_, ?_⟩
  · intro pre post base
    exact applyAll_congr_active _ _ base (getActive_append_inactive pre post m hact)
  · intro pre post
    rw [collTick_append pre (m :: post)]
    have hsingle : ModifierCollection.tick (m :: post)
        = ((ModifierCollection.tick post).1, m.id :: (ModifierCollection.tick post).2) := by
      simp [ModifierCollection.tick, htick]
    rw [hsingle]

/-- Round trip of one spec-modelled modular stat through its serialized
form, for constructor-maintained stats (sanitized non-empty id, non-empty
display mode, ordered bounds, clamped current value). -/
theorem mstat_roundtrip_json (fresh : String) (s : MStat)
    (h1 : jsIsNonEmptyString s.id = true) (h2 : sanitizeIdU s.id = s.id)
    (h3 : s.displayMode ≠ "") (h4 : s.minValue ≤ s.maxValue)
    (h5 : s.minValue ≤ s.currentValue) (h6 : s.currentValue ≤ s.maxValue) :
    (MStat.fromJSON fresh s.toJSON).toJSON = s.toJSON := by
  obtain ⟨sid, sname, sbase, scur, smin, smax, scol, sdm, sui, scat, slc⟩ := s
  simp only at h1 h2 h3 h4 h5 h6
  have hswap : ¬ (smin > smax) := not_lt.mpr h4
  cases sui <;>
  · simp only [MStat.fromJSON, MStat.toJSON, mkMStat, statJsonConfig, toNumberOpt,
      Option.getD, if_neg hswap]
    rw [if_pos h1, h2, min_eq_right h6, max_eq_right h5, if_neg h3]

/-- C8 (amended): serialization round trips reproduce the serialized
fields for every value the classes themselves produce — a `Stat` with a
sanitized non-empty id and non-empty display mode, a `StatModifier` whose
`maxStacks`/`currentStacks` are positive integers (in particular
`currentStacks ≥ 1`: a modifier whose stacks were fully removed
deserializes with `currentStacks` 1, not 0), and a `SimulationState` with a
non-empty id, non-zero timestamps and constructor-maintained stats. -/
theorem roundtrip_serialization :
    (∀ (fresh : String) (s : Stat),
        jsIsNonEmptyString s.id = true → sanitizeIdStandalone s.id = s.id →
        s.displayMode ≠ "" →
          (Stat.fromJSON fresh s.toJSON).id = s.id
          ∧ (Stat.fromJSON fresh s.toJSON).name = s.name
          ∧ (Stat.fromJSON fresh s.toJSON).baseValue = s.baseValue
          ∧ (Stat.fromJSON fresh s.toJSON).currentValue = s.currentValue
          ∧ (Stat.fromJSON fresh s.toJSON).minValue = s.minValue
          ∧ (Stat.fromJSON fresh s.toJSON).maxValue = s.maxValue
          ∧ (Stat.fromJSON fresh s.toJSON).displayMode = s.displayMode)
    ∧ (∀ (fresh : String) (now : ℚ) (m : StatModifier),
        jsIsNonEmptyString m.id = true → sanitizeIdU m.id = m.id →
        m.statId = (if jsIsNonEmptyString m.statId then sanitizeIdU m.statId else "") →
        toPositiveIntVal m.maxStacks = m.maxStacks →
        toPositiveIntVal m.currentStacks = m.currentStacks →
          StatModifier.fromJSON fresh now m.toJSON = m)
    ∧ (∀ (fresh : String) (now : ℚ) (st : SimulationState),
        jsIsNonEmptyString st.id = true → st.createdAt ≠ 0 → st.updatedAt ≠ 0 →
        (∀ s ∈ st.stats, jsIsNonEmptyString s.id = true ∧ sanitizeIdU s.id = s.id
          ∧ s.displayMode ≠ "" ∧ s.minValue ≤ s.maxValue
          ∧ s.minValue ≤ s.currentValue ∧ s.currentValue ≤ s.maxValue) →
          (SimulationState.fromJSON fresh now st.toJSON).toJSON = st.toJSON) := by
  refine ⟨?_, ?_, ?_⟩
  · intro fresh s h1 h2 h3
    refine ⟨?_, rfl, rfl, rfl, rfl, rfl, ?_⟩
    · show (if jsIsNonEmptyString s.id = true then sanitizeIdStandalone s.id else fresh) = s.id
      rw [if_pos h1, h2]
    · show (if s.displayMode = "" then "fraction" else s.displayMode) = s.displayMode
      rw [if_neg h3]
  · intro fresh now m h1 h2 h3 h4 h5
    obtain ⟨mid, mname, mstat, mtype, mval, mdur, mmax, mcur, msrc, mcre, mrem⟩ := m
    simp only at h1 h2 h3 h4 h5
    simp only [StatModifier.fromJSON, StatModifier.toJSON, modifierJsonConfig,
      mkStatModifier, toNumberOpt, toPositiveIntOpt, Option.getD]
    rw [if_pos h1, h2, h4, h5, ← h3]
  · intro fresh now st hid hcre hupd hstats
    have hstatsEq : StatManager.toJSON (StatManager.fromJSON fresh (StatManager.toJSON st.stats))
        = StatManager.toJSON st.stats := by
      unfold StatManager.toJSON StatManager.fromJSON
      rw [List.map_map, List.map_map]
      apply List.map_congr_left
      intro s hs
      rcases hstats s hs with ⟨a1, a2, a3, a4, a5, a6⟩
      simpa [Function.comp] using mstat_roundtrip_json fresh s a1 a2 a3 a4 a5 a6
    have hcre1 : jsOrQ st.createdAt now = st.createdAt := by
      unfold jsOrQ
      rw [if_neg hcre]
    have hupd1 : jsOrQ st.updatedAt now = st.updatedAt := by
      unfold jsOrQ
      rw [if_neg hupd]
    have hturn : jsOrQ st.turnCount 0 = st.turnCount := by
      unfold jsOrQ
      by_cases ht : st.turnCount = 0
      · rw [if_pos ht, ht]
      · rw [if_neg ht]
    simp only [SimulationState.fromJSON, SimulationState.toJSON]
    rw [if_pos hid, hcre1, hupd1, hturn, hstatsEq]

/-- Witness for C8: the three round trips applied at a concrete stat,
modifier and simulation state. -/
theorem roundtrip_serialization_witness :
    (Stat.fromJSON "w" hpS.toJSON).currentValue = hpS.currentValue
    ∧ StatModifier.fromJSON "w" 11 modGood.toJSON = modGood
    ∧ (SimulationState.fromJSON "w" 12 stGood.toJSON).toJSON = stGood.toJSON := by
  refine ⟨?_, ?_, ?_⟩
  · exact (roundtrip_serialization.1 "w" hpS (by with_unfolding_all decide)
      (by with_unfolding_all decide) (by with_unfolding_all decide)).2.2.2.1
  · exact roundtrip_serialization.2.1 "w" 11 modGood (by with_unfolding_all decide)
      (by with_unfolding_all decide) (by with_unfolding_all decide)
      (by with_unfolding_all decide) (by with_unfolding_all decide)
  · refine roundtrip_serialization.2.2 "w" 12 stGood (by with_unfolding_all decide)
      (by with_unfolding_all decide) (by with_unfolding_all decide) ?_
    intro s hs
    have hone : s = hpM := List.mem_singleton.mp hs
    rw [hone]
    refine ⟨?_, ?_, ?_, ?_, ?_, ?_⟩ <;> with_unfolding_all decide

/-- Counterexample for C8 as stated: a modifier whose stacks were all
removed (a reachable state, `currentStacks = 0`) does not survive the
round trip — `toPositiveInt` lifts the deserialized stack count back
to 1. -/
theorem roundtrip_cex :
    (StatModifier.fromJSON "w" 0 ((modGood.removeStacks 1).toJSON)).currentStacks
      ≠ (modGood.removeStacks 1).currentStacks := by
  with_unfolding_all decide

/-- Counterexample for C9 as stated: on `"\x7b\x7bhp:12abc\x7d\x7d"` the
modular parser emits no valid command (the value fails its grammar) while
the standalone parser emits MODIFY `hp` 12 (`parseFloat` accepts the
numeric prefix). -/
theorem parsers_disagree_cex :
    (ModularParser.parseValid false exDisagree).map cmdTriple
      ≠ (StandaloneParser.parseValid false exDisagree).map scmdTriple := by
  with_unfolding_all decide

end SimBuilder
